import Mathlib

/-!
Verification of the preconfirmation blob-bidder pipeline (Go repository
primev/preconf_bot_example) against its natural-language specification.

The Go code is shallowly embedded: every RPC read (pending nonce, latest
header, chain id) is modelled as an `Option` field of a `ChainState`
snapshot (`none` = the read errored), external cryptography and the
eip-4844 fee library are modelled as oracle function records, and Go
`(value, error)` returns become `Except`.  Machine `uint64` arithmetic
that can wrap (block number + offset) carries an explicit `% 2 ^ 64`.
-/

namespace PreconfBot

/-! ## Data model -/

/-- A block header as read by `client.HeaderByNumber` (the fields the
program uses: `BaseFee`, `Number`, `ExcessBlobGas`, `BlobGasUsed`). -/
structure Header where
  baseFee : Int
  number : Nat
  excessBlobGas : Nat
  blobGasUsed : Nat
deriving Repr, DecidableEq

/-- The chain state visible through the RPC client at construction time.
Each field is `none` exactly when the corresponding RPC call would
return a non-nil error (`PendingNonceAt`, `HeaderByNumber`,
`NetworkID`). -/
structure ChainState where
  pendingNonce : Option Nat
  header : Option Header
  networkID : Option Int
deriving Repr, DecidableEq

/-- The authenticated account (`bb.AuthAcct`) together with the outcomes
of the fallible signing-related library calls made on its key:
`signOk` models `types.SignTx` / `auth.Signer` succeeding,
`keyedTransactorOk` models `bind.NewKeyedTransactorWithChainID`
succeeding, and `pubKeyIsECDSA` models the
`publicKey.(*ecdsa.PublicKey)` type assertion. -/
structure AuthAcct where
  address : Nat
  signOk : Bool
  keyedTransactorOk : Bool
  pubKeyIsECDSA : Bool
deriving Repr, DecidableEq

/-- The error outcomes of transaction construction. -/
inductive BuildError
  | stateReadError
  | castError
  | transactorError
  | signError
deriving Repr, DecidableEq

/-- The fields of the EIP-1559 `types.DynamicFeeTx` the program sets
(`To` is always the sender's own address and is represented by the
account, so it is omitted). -/
structure DynamicFeeTx where
  nonce : Nat
  value : Int
  gas : Nat
  gasFeeCap : Int
  gasTipCap : Int
deriving Repr, DecidableEq

/-! ## Transaction builder: `SelfETHTransfer`

The repository contains two variants of `SelfETHTransfer`
(src/core/eth/sendtx.go lines 28-77 and lines 243-292).  Both read the
pending nonce, the latest header and the network id, set
`maxPriorityFee = baseFee * 2` and `maxFeePerGas = maxPriorityFee * 2`,
and sign; they differ only in the `GasTipCap` they place in the
transaction: the first writes `big.NewInt(0)`, the second writes
`maxPriorityFee`. -/

/-- `SelfETHTransfer`, first variant (sendtx.go lines 28-77):
`GasTipCap` is set to `0` even though `maxPriorityFee` was computed. -/
def selfETHTransferV1 (st : ChainState) (authAcct : AuthAcct) (value : Int)
    (offset : Nat) : Except BuildError (DynamicFeeTx × Nat) :=
  match st.pendingNonce with
  | none => .error .stateReadError
  | some nonce =>
    match st.header with
    | none => .error .stateReadError
    | some header =>
      let baseFee := header.baseFee
      let blockNumber := header.number
      let maxPriorityFee := baseFee * 2
      let maxFeePerGas := maxPriorityFee * 2
      match st.networkID with
      | none => .error .stateReadError
      | some _chainID =>
        let tx : DynamicFeeTx :=
          { nonce := nonce, value := value, gas := 500000
            gasFeeCap := maxFeePerGas, gasTipCap := 0 }
        if authAcct.signOk then .ok (tx, (blockNumber + offset) % 2 ^ 64)
        else .error .signError

/-- `SelfETHTransfer`, second variant (sendtx.go lines 243-292):
identical except that `GasTipCap` is set to `maxPriorityFee`. -/
def selfETHTransferV2 (st : ChainState) (authAcct : AuthAcct) (value : Int)
    (offset : Nat) : Except BuildError (DynamicFeeTx × Nat) :=
  match st.pendingNonce with
  | none => .error .stateReadError
  | some nonce =>
    match st.header with
    | none => .error .stateReadError
    | some header =>
      let baseFee := header.baseFee
      let blockNumber := header.number
      let maxPriorityFee := baseFee * 2
      let maxFeePerGas := maxPriorityFee * 2
      match st.networkID with
      | none => .error .stateReadError
      | some _chainID =>
        let tx : DynamicFeeTx :=
          { nonce := nonce, value := value, gas := 500000
            gasFeeCap := maxFeePerGas, gasTipCap := maxPriorityFee }
        if authAcct.signOk then .ok (tx, (blockNumber + offset) % 2 ^ 64)
        else .error .signError

/-! ## Transaction builder: `ExecuteBlobTransaction`

Blob payloads, KZG commitments/proofs and the eip-4844 fee library are
external collaborators; they are modelled by an oracle record.  A Go
call `c, err := f(...)` of an oracle is modelled as `Option`: `none`
means `err != nil`, in which case the Go first return value is the type's
zero value (modelled as `0`). -/

/-- Opaque blob payload (external fixed-size byte sequence). -/
abbrev Blob := Nat

/-- Opaque KZG commitment (zero value `0`). -/
abbrev Commitment := Nat

/-- Opaque KZG opening proof (zero value `0`). -/
abbrev Proof := Nat

/-- External collaborators used by `ExecuteBlobTransaction`:
the randomness source behind `randBlob`, the KZG commitment scheme
(`kzg4844.BlobToCommitment`, `kzg4844.ComputeBlobProof`, the versioned
hash derivation behind `sideCar.BlobHashes()`), and the eip-4844 fee
functions (`eip4844.CalcExcessBlobGas`, `eip4844.CalcBlobFee`). -/
structure ExtOracle where
  entropy : Nat → Blob
  blobToCommitment : Blob → Option Commitment
  computeBlobProof : Blob → Commitment → Option Proof
  versionedHash : Commitment → Nat
  calcExcessBlobGas : Nat → Nat → Nat
  calcBlobFee : Nat → Nat

/-- `types.BlobTxSidecar`. -/
structure BlobTxSidecar where
  blobs : List Blob
  commitments : List Commitment
  proofs : List Proof
deriving Repr, DecidableEq

/-- `makeSidecar` (sendtx.go lines 166-186).  For each blob it calls
`c, _ := kzg4844.BlobToCommitment(&blob)` and
`p, _ := kzg4844.ComputeBlobProof(&blob, c)`: both error returns are
discarded, so a failing call contributes the zero-valued commitment or
proof and the sidecar is assembled regardless. -/
def makeSidecar (o : ExtOracle) (blobs : List Blob) : BlobTxSidecar :=
  { blobs := blobs
    commitments := blobs.map fun b => (o.blobToCommitment b).getD 0
    proofs := blobs.map fun b =>
      (o.computeBlobProof b ((o.blobToCommitment b).getD 0)).getD 0 }

/-- `sideCar.BlobHashes()`: one versioned hash per commitment. -/
def sidecarBlobHashes (o : ExtOracle) (s : BlobTxSidecar) : List Nat :=
  s.commitments.map o.versionedHash

/-- `randBlobs` (sendtx.go lines 188-194): `n` independently randomized
blobs drawn from the entropy source. -/
def randBlobs (o : ExtOracle) (n : Nat) : List Blob :=
  (List.range n).map o.entropy

/-- The blob-fee-cap computation of `ExecuteBlobTransaction`
(sendtx.go lines 112-124): starting from the network-computed minimum
`m`, `blobFeeCap.Add(blobFeeCap, big.NewInt(1))` and then
`blobFeeCap.Mul(blobFeeCap, 110).Div(blobFeeCap, 100)`. -/
def blobFeeCapBump (m : Nat) : Nat := ((m + 1) * 110) / 100

/-- The fields of `types.BlobTx` the program sets. -/
structure BlobTx where
  chainID : Int
  nonce : Nat
  gasTipCap : Int
  gasFeeCap : Int
  gas : Nat
  blobFeeCap : Nat
  blobHashes : List Nat
  sidecar : BlobTxSidecar
deriving Repr, DecidableEq

/-- `ExecuteBlobTransaction` (sendtx.go lines 80-163): public-key cast
check, nonce / header / chain-id reads, blob fee cap bump, `numBlobs`
random blobs with their sidecar and versioned hashes,
`maxPriorityFee = baseFee * 2`, `maxFeePerGas = maxPriorityFee * 2`
(the `BlobTx` itself carries `GasTipCap = 0`), then keyed-transactor
creation and signing. -/
def executeBlobTransaction (o : ExtOracle) (st : ChainState)
    (authAcct : AuthAcct) (numBlobs : Nat) (offset : Nat) :
    Except BuildError (BlobTx × Nat) :=
  let gasLimit := 500000
  if !authAcct.pubKeyIsECDSA then .error .castError
  else
    match st.pendingNonce with
    | none => .error .stateReadError
    | some nonce =>
      match st.header with
      | none => .error .stateReadError
      | some header =>
        match st.networkID with
        | none => .error .stateReadError
        | some chainID =>
          let parentExcessBlobGas :=
            o.calcExcessBlobGas header.excessBlobGas header.blobGasUsed
          let minBlobFee := o.calcBlobFee parentExcessBlobGas
          let blobs := randBlobs o numBlobs
          let sideCar := makeSidecar o blobs
          let blobHashes := sidecarBlobHashes o sideCar
          let blobFeeCap := blobFeeCapBump minBlobFee
          let baseFee := header.baseFee
          let maxPriorityFee := baseFee * 2
          let maxFeePerGas := maxPriorityFee * 2
          let tx : BlobTx :=
            { chainID := chainID, nonce := nonce, gasTipCap := 0
              gasFeeCap := maxFeePerGas, gas := gasLimit
              blobFeeCap := blobFeeCap, blobHashes := blobHashes
              sidecar := sideCar }
          if !authAcct.keyedTransactorOk then .error .transactorError
          else if !authAcct.signOk then .error .signError
          else .ok (tx, (header.number + offset) % 2 ^ 64)

/-! ## Bid submitter: `(*Bidder).SendBid`

(src/core/eth/sendtx.go third section, package mevcommit, lines
312-397.)  The gRPC stream returned by `b.client.SendBid` is modelled
as the list of successive `Recv` outcomes before `io.EOF`: `some m` is
a received acceptance record, `none` is a non-EOF receive error. -/

/-- An acceptance record received from the bid stream (opaque). -/
abbrev BidMsg := Nat

/-- The `pb.Bid` request schema (fields the program sets). -/
structure Bid where
  amount : String
  blockNumber : Int
  decayStartTimestamp : Int
  decayEndTimestamp : Int
  txHashes : List String
  rawTransactions : List String
deriving Repr, DecidableEq

/-- The dynamic type of the untyped `input` argument of `SendBid`:
a slice of transaction-hash strings, a slice of signed transactions,
or any other (unsupported) type. -/
inductive BidInput
  | hashes (v : List String)
  | txs (v : List DynamicFeeTx)
  | other
deriving Repr, DecidableEq

/-- Error outcomes of `SendBid`. -/
inductive SendBidError
  | unsupportedInput
  | marshalFailed
  | sendFailed
  | streamRecvFailed
deriving Repr, DecidableEq

/-- `strings.TrimPrefix(hash, "0x")`: drop a leading `0x` when
present, return the string unchanged otherwise. -/
def trimHex0x (s : String) : String :=
  match s.data with
  | '0' :: 'x' :: rest => String.mk rest
  | _ => s

/-- The raw-transaction encoding loop of `SendBid`: for each
transaction, `tx.MarshalBinary()` followed by `hex.EncodeToString`
(modelled together by the `marshal` collaborator, `none` = error); the
first failure aborts the whole call. -/
def marshalRawTxs (marshal : DynamicFeeTx → Option String) :
    List DynamicFeeTx → Option (List String)
  | [] => some []
  | t :: ts =>
    match marshal t with
    | none => none
    | some s => (marshalRawTxs marshal ts).map fun rest => s :: rest

/-- The `bidRequest` construction of `SendBid` (lines 342-358): the
request starts with both transaction lists unset (empty); then
`if len(txHashes) > 0` populates `TxHashes`, `else if
len(rawTransactions) > 0` populates `RawTransactions`, and otherwise
both stay empty. -/
def mkBidRequest (txHashes rawTransactions : List String) (amount : String)
    (blockNumber decayStart decayEnd : Int) : Bid :=
  let base : Bid :=
    { amount := amount, blockNumber := blockNumber
      decayStartTimestamp := decayStart, decayEndTimestamp := decayEnd
      txHashes := [], rawTransactions := [] }
  if txHashes.length > 0 then { base with txHashes := txHashes }
  else if rawTransactions.length > 0 then
    { base with rawTransactions := rawTransactions }
  else base

/-- The input switch plus request construction of `SendBid` (lines
317-358): hash inputs are trimmed of `0x`, transaction inputs are
marshalled (first failure aborts), any other input type is rejected. -/
def sendBidRequest (marshal : DynamicFeeTx → Option String)
    (input : BidInput) (amount : String)
    (blockNumber decayStart decayEnd : Int) : Except SendBidError Bid :=
  match input with
  | .hashes v =>
    let txHashes := v.map trimHex0x
    .ok (mkBidRequest txHashes [] amount blockNumber decayStart decayEnd)
  | .txs v =>
    match marshalRawTxs marshal v with
    | none => .error .marshalFailed
    | some rawTransactions =>
      .ok (mkBidRequest [] rawTransactions amount blockNumber decayStart
        decayEnd)
  | .other => .error .unsupportedInput

/-- The receive loop of `SendBid` (lines 376-389): `Recv` until
`io.EOF` accumulating every message in order; a non-EOF receive error
returns an error immediately, so the partial accumulation is
discarded. -/
def drainStream : List (Option BidMsg) → Except SendBidError (List BidMsg)
  | [] => .ok []
  | some m :: rest =>
    match drainStream rest with
    | .ok ms => .ok (m :: ms)
    | .error e => .error e
  | none :: _ => .error .streamRecvFailed

/-- The mev-commit bidder service: `send` returns the stream of `Recv`
outcomes for a request, or `none` when the `SendBid` RPC itself errors. -/
structure BidderClient where
  send : Bid → Option (List (Option BidMsg))

/-- `(*Bidder).SendBid` (lines 312-397): build the request, open the
server-streaming RPC, drain the stream to completion.  The model
returns the submitted request together with the accumulated acceptance
records (which the Go code hands to the fire-and-forget
`saveBidResponses` collaborator). -/
def sendBid (marshal : DynamicFeeTx → Option String) (client : BidderClient)
    (input : BidInput) (amount : String)
    (blockNumber decayStart decayEnd : Int) :
    Except SendBidError (Bid × List BidMsg) :=
  match sendBidRequest marshal input amount blockNumber decayStart decayEnd with
  | .error e => .error e
  | .ok bidRequest =>
    match client.send bidRequest with
    | none => .error .sendFailed
    | some events =>
      match drainStream events with
      | .error e => .error e
      | .ok responses => .ok (bidRequest, responses)

/-! ## Orchestrator: `sendPreconfBid` and the per-header step
(src/unnamed/part_002, package main). -/

/-- The dynamic type of `sendPreconfBid`'s untyped `input` argument:
a transaction-hash string, a transaction object, or anything else. -/
inductive PreconfInput
  | hashString (s : String)
  | txObject (t : DynamicFeeTx)
  | other
deriving Repr, DecidableEq

/-- `int64(time.Duration(36*time.Second).Milliseconds())`: the bid
decay duration, 36 seconds expressed in milliseconds. -/
def bidDecayDurationMs : Int := (36 * 1000000000) / 1000000

/-- `sendPreconfBid` (part_002 lines 300-348): draws a random bid
amount (the randomized wei amount is a pluggable policy, passed in as
`randomWeiAmount`), sets `decayStart = time.Now().UnixMilli()` and
`decayEnd = decayStart + 36s`, and dispatches on the input type;
an unsupported type returns without sending (`none`). -/
def sendPreconfBid (marshal : DynamicFeeTx → Option String)
    (client : BidderClient) (input : PreconfInput) (blockNumber : Int)
    (nowMs : Int) (randomWeiAmount : Int) :
    Option (Except SendBidError (Bid × List BidMsg)) :=
  let amount := toString randomWeiAmount
  let decayStart := nowMs
  let decayEnd := nowMs + bidDecayDurationMs
  match input with
  | .hashString s =>
    some (sendBid marshal client (.hashes [trimHex0x s]) amount blockNumber
      decayStart decayEnd)
  | .txObject t =>
    some (sendBid marshal client (.txs [t]) amount blockNumber decayStart
      decayEnd)
  | .other => none

/-- Outcome of the orchestrator's per-header processing step. -/
inductive StepOutcome
  | crashNilDeref
  | bidSubmitted
  | skipped
deriving Repr, DecidableEq

/-- The per-header step of `main` (part_002 lines 212-242), as a
function of the `SelfETHTransfer` result.  Immediately after the call,
before any `err != nil` check, the code logs
`signedTx.GasTipCap()`, `signedTx.GasFeeCap()`, `signedTx.Gas()`,
`signedTx.Hash()` and `len(signedTx.Data())`: when the construction
returned an error the returned transaction pointer is nil, so this
dereference panics the process.  The error check that does
`continue` (lines 239-242) is only reached after the transaction has
already been used, at which point `err` is necessarily nil. -/
def processHeader (build : Except BuildError (DynamicFeeTx × Nat))
    (usePayload : Bool) : StepOutcome :=
  match build with
  | .error _ => .crashNilDeref
  | .ok _ =>
    -- the usePayload branch sends the payload bid, the other branch
    -- sends the bundle plus a hash bid; both end with the (vacuous)
    -- error check and fall through to the next header
    match usePayload with
    | true => .bidSubmitted
    | false => .bidSubmitted

/-! ## Chain head watcher: `connectWSClient` / `reconnectWSClient`
(part_002 lines 268-298).

`connectWSClient` is self-recursive without bound: on a dial failure
it sleeps ten seconds and calls itself again, forever.  When it does
return, its error is always nil.  It is modelled fuel-indexed: the
dial outcomes form a stream `dialOk : Nat → Bool` consumed one attempt
at a time, and running out of fuel (`none`) means the real recursion
has not yet returned within that many attempts.  The real call
terminates iff some fuel suffices. -/

/-- `connectWSClient` (lines 268-277), fuel-indexed.  Returns the dial
stream position after the successful attempt (standing for the
connected client); `none` when `fuel` attempts were exhausted with the
recursion still running. -/
def connectWSClientFuel (dialOk : Nat → Bool) : Nat → Nat → Option Nat
  | _, 0 => none
  | t, fuel + 1 =>
    if dialOk t then some (t + 1)
    else connectWSClientFuel dialOk (t + 1) fuel

/-- Outcome of `reconnectWSClient`: a live connection-plus-subscription
obtained at loop iteration `i`, or the fatal `log.Crit` escalation
after the loop. -/
inductive ReconnectOutcome
  | connected (i : Nat)
  | fatal
deriving Repr, DecidableEq

/-- The retry loop of `reconnectWSClient` (lines 279-298):
`for i := 0; i < 10; i++` call `connectWSClient` (which always returns
err == nil when it returns at all), then `SubscribeNewHead`, whose
outcome at iteration `i` is `subOk i`; a successful subscription
returns, otherwise the next iteration runs; after ten iterations
`log.Crit` terminates the process.  `r` is the number of iterations
remaining, `i` the current iteration index, `t` the dial-stream
position; `none` means the inner `connectWSClient` recursion had not
returned within `fuel`. -/
def reconnectLoop (dialOk subOk : Nat → Bool) (fuel : Nat) :
    Nat → Nat → Nat → Option ReconnectOutcome
  | 0, _, _ => some .fatal
  | r + 1, i, t =>
    match connectWSClientFuel dialOk t fuel with
    | none => none
    | some t' =>
      if subOk i then some (.connected i)
      else reconnectLoop dialOk subOk fuel r (i + 1) t'

/-- `reconnectWSClient` (lines 279-298). -/
def reconnectWSClient (dialOk subOk : Nat → Bool) (fuel : Nat) :
    Option ReconnectOutcome :=
  reconnectLoop dialOk subOk fuel 10 0 0

/-- `reconnectWSClient` terminates on the given dial/subscription
outcome streams: some fuel bound makes it return. -/
def reconnectTerminates (dialOk subOk : Nat → Bool) : Prop :=
  ∃ fuel, (reconnectWSClient dialOk subOk fuel).isSome

/-! ## Account authentication: `AuthenticateAddress`
(src/core/mevcommit/contracts.go lines 436-474). -/

/-- External cryptographic collaborators of `AuthenticateAddress`:
`crypto.HexToECDSA` (fallible key parse), `privateKey.Public`
(always an ECDSA key here), `crypto.PubkeyToAddress`, and
`bind.NewKeyedTransactorWithChainID` (fallible). -/
structure CryptoOracle where
  hexToECDSA : String → Option Nat
  pubOf : Nat → Nat
  pubkeyToAddress : Nat → Nat
  keyedTransactor : Nat → Option Nat

/-- The `AuthAcct` struct as returned by `AuthenticateAddress`: pointer
fields are `Option` (`none` = nil pointer) and the address's zero
value is `0`. -/
structure AuthAcctFull where
  privateKey : Option Nat
  publicKey : Option Nat
  address : Nat
  auth : Option Nat
deriving Repr, DecidableEq

/-- Error outcomes of `AuthenticateAddress`.  `fatalCrit` marks the
`log.Crit` call on keyed-transactor failure, which terminates the
process. -/
inductive AuthError
  | keyParseError
  | fatalCrit
deriving Repr, DecidableEq

/-- `AuthenticateAddress` (contracts.go lines 436-474).  An empty
private-key string returns the zero-valued `AuthAcct` with a nil
error before any cryptographic work; otherwise the key is parsed
(parse failure is returned as an error), the public key, address and
keyed transactor are derived, and the populated struct is returned. -/
def authenticateAddress (c : CryptoOracle) (privateKeyHex : String) :
    Except AuthError AuthAcctFull :=
  if privateKeyHex = "" then
    .ok { privateKey := none, publicKey := none, address := 0, auth := none }
  else
    match c.hexToECDSA privateKeyHex with
    | none => .error .keyParseError
    | some privateKey =>
      let publicKey := c.pubOf privateKey
      let address := c.pubkeyToAddress publicKey
      match c.keyedTransactor privateKey with
      | none => .error .fatalCrit
      | some auth =>
        .ok { privateKey := some privateKey, publicKey := some publicKey
              address := address, auth := some auth }

/-! ## Concrete fixtures used to evaluate the definitions -/

/-- A concrete latest header: base fee 100, block number 10. -/
def sampleHeader : Header :=
  { baseFee := 100, number := 10, excessBlobGas := 7, blobGasUsed := 3 }

/-- A chain state in which every RPC read succeeds. -/
def sampleState : ChainState :=
  { pendingNonce := some 5, header := some sampleHeader, networkID := some 17000 }

/-- An account for which every signing-related library call succeeds. -/
def sampleAcct : AuthAcct :=
  { address := 0, signOk := true, keyedTransactorOk := true, pubKeyIsECDSA := true }

/-- A commitment-scheme oracle on which every commitment and proof
computation fails; the eip-4844 minimum blob fee is 1000. -/
def failingKzgOracle : ExtOracle :=
  { entropy := fun _ => 0
    blobToCommitment := fun _ => none
    computeBlobProof := fun _ _ => none
    versionedHash := fun c => c
    calcExcessBlobGas := fun a b => a + b
    calcBlobFee := fun _ => 1000 }

/-- A bidder client that accepts any request and streams two
acceptance records before end-of-stream. -/
def sampleClient : BidderClient :=
  { send := fun _ => some [some 7, some 8] }

/-- A bidder client that accepts any request and closes the stream
immediately. -/
def emptyStreamClient : BidderClient :=
  { send := fun _ => some [] }

/-! ## Helper lemmas -/

theorem mkBidRequest_decay (hs raws : List String) (a : String)
    (bn ds de : Int) :
    (mkBidRequest hs raws a bn ds de).decayStartTimestamp = ds ∧
    (mkBidRequest hs raws a bn ds de).decayEndTimestamp = de := by
  unfold mkBidRequest
  split
  · exact ⟨rfl, rfl⟩
  · split
    · exact ⟨rfl, rfl⟩
    · exact ⟨rfl, rfl⟩

theorem mkBidRequest_txHashes (hs raws : List String) (a : String)
    (bn ds de : Int) :
    (mkBidRequest hs raws a bn ds de).txHashes =
      if hs.length > 0 then hs else [] := by
  unfold mkBidRequest
  split
  · simp [*]
  · split <;> simp [*]

theorem mkBidRequest_rawTransactions (hs raws : List String) (a : String)
    (bn ds de : Int) :
    (mkBidRequest hs raws a bn ds de).rawTransactions =
      if hs.length > 0 then []
      else if raws.length > 0 then raws else [] := by
  unfold mkBidRequest
  split
  · simp [*]
  · split <;> simp [*]

theorem mkBidRequest_exclusive (hs raws : List String) (a : String)
    (bn ds de : Int) :
    (mkBidRequest hs raws a bn ds de).txHashes = [] ∨
    (mkBidRequest hs raws a bn ds de).rawTransactions = [] := by
  rw [mkBidRequest_txHashes, mkBidRequest_rawTransactions]
  by_cases h : hs.length > 0
  · right; simp [h]
  · left; simp [h]

theorem marshalRawTxs_length (marshal : DynamicFeeTx → Option String)
    (v : List DynamicFeeTx) (raws : List String)
    (h : marshalRawTxs marshal v = some raws) :
    raws.length = v.length := by
  induction v generalizing raws with
  | nil =>
    simp [marshalRawTxs] at h
    subst h
    rfl
  | cons t ts ih =>
    unfold marshalRawTxs at h
    cases hm : marshal t with
    | none => rw [hm] at h; cases h
    | some s =>
      rw [hm] at h
      cases hr : marshalRawTxs marshal ts with
      | none => rw [hr] at h; cases h
      | some rest =>
        rw [hr] at h
        simp at h
        subst h
        simp [ih rest hr]

theorem sendBidRequest_ok_inv (marshal : DynamicFeeTx → Option String)
    (input : BidInput) (amount : String) (bn ds de : Int) (bid : Bid)
    (h : sendBidRequest marshal input amount bn ds de = .ok bid) :
    (∃ v, input = .hashes v ∧
      bid = mkBidRequest (v.map trimHex0x) [] amount bn ds de) ∨
    (∃ v raws, input = .txs v ∧ marshalRawTxs marshal v = some raws ∧
      bid = mkBidRequest [] raws amount bn ds de) := by
  cases input with
  | hashes v =>
    left
    refine ⟨v, rfl, ?_⟩
    simp [sendBidRequest] at h
    exact h.symm
  | txs v =>
    right
    simp only [sendBidRequest] at h
    cases hm : marshalRawTxs marshal v with
    | none => rw [hm] at h; cases h
    | some raws =>
      rw [hm] at h
      simp at h
      exact ⟨v, raws, rfl, hm, h.symm⟩
  | other => cases h

theorem sendBid_ok_inv (marshal : DynamicFeeTx → Option String)
    (client : BidderClient) (input : BidInput) (amount : String)
    (bn ds de : Int) (bid : Bid) (ms : List BidMsg)
    (h : sendBid marshal client input amount bn ds de = .ok (bid, ms)) :
    sendBidRequest marshal input amount bn ds de = .ok bid := by
  unfold sendBid at h
  split at h
  · cases h
  · rename_i b heq
    split at h
    · cases h
    · rename_i events hsend
      split at h
      · cases h
      · rename_i rs hdrain
        simp only [Except.ok.injEq, Prod.mk.injEq] at h
        rw [heq, h.1]

theorem drainStream_all_some (events : List (Option BidMsg))
    (h : ∀ e ∈ events, e ≠ none) :
    drainStream events = .ok (events.filterMap id) := by
  induction events with
  | nil => rfl
  | cons e rest ih =>
    cases e with
    | none => exact absurd rfl (h none (List.mem_cons_self _ _))
    | some m =>
      have hrest := ih fun x hx => h x (List.mem_cons_of_mem _ hx)
      simp [drainStream, hrest]

theorem drainStream_has_none (events : List (Option BidMsg))
    (h : none ∈ events) :
    drainStream events = .error .streamRecvFailed := by
  induction events with
  | nil => cases h
  | cons e rest ih =>
    cases e with
    | none => rfl
    | some m =>
      have hr : (none : Option BidMsg) ∈ rest := by
        rcases List.mem_cons.mp h with h1 | h2
        · cases h1
        · exact h2
      simp [drainStream, ih hr]

theorem blobFeeCapBump_gt (m : Nat) :
    m < blobFeeCapBump m ∧ 110 * m ≤ 100 * blobFeeCapBump m := by
  unfold blobFeeCapBump
  omega

theorem connectWSClientFuel_false (t fuel : Nat) :
    connectWSClientFuel (fun _ => false) t fuel = none := by
  induction fuel generalizing t with
  | zero => rfl
  | succ f ih => simp [connectWSClientFuel, ih]

theorem connectWSClientFuel_true (t fuel : Nat) :
    connectWSClientFuel (fun _ => true) t (fuel + 1) = some (t + 1) := by
  simp [connectWSClientFuel]

theorem reconnectLoop_false_dial (r i t fuel : Nat) (hr : 0 < r) :
    reconnectLoop (fun _ => false) (fun _ => true) fuel r i t = none := by
  cases r with
  | zero => omega
  | succ r => simp [reconnectLoop, connectWSClientFuel_false]

theorem reconnectLoop_true_dial (subOk : Nat → Bool) (r i t : Nat) :
    (reconnectLoop (fun _ => true) subOk 1 r i t).isSome = true ∧
    (reconnectLoop (fun _ => true) subOk 1 r i t = some .fatal ↔
      ∀ k, k < r → subOk (i + k) = false) := by
  induction r generalizing i t with
  | zero =>
    refine ⟨rfl, ?_⟩
    constructor
    · intro _ k hk
      exact absurd hk (Nat.not_lt_zero k)
    · intro _
      rfl
  | succ r ih =>
    by_cases hs : subOk i = true
    · refine ⟨?_, ?_⟩
      · simp [reconnectLoop, connectWSClientFuel_true, hs]
      · simp only [reconnectLoop, connectWSClientFuel_true, hs]
        constructor
        · intro hc
          simp at hc
        · intro hall
          have h0 := hall 0 (by omega)
          simp [hs] at h0
    · have hsf : subOk i = false := by
        cases hsv : subOk i
        · rfl
        · exact absurd hsv hs
      obtain ⟨ih1, ih2⟩ := ih (i + 1) (t + 1)
      refine ⟨?_, ?_⟩
      · simpa [reconnectLoop, connectWSClientFuel_true, hsf] using ih1
      · simp only [reconnectLoop, connectWSClientFuel_true, hsf]
        rw [if_neg (by simp)]
        rw [ih2]
        constructor
        · intro hall k hk
          cases k with
          | zero => simpa using hsf
          | succ k =>
            have hik : i + 1 + k = i + (k + 1) := by omega
            have := hall k (by omega)
            rwa [hik] at this
        · intro hall k hk
          have hik : i + (k + 1) = i + 1 + k := by omega
          have := hall (k + 1) (by omega)
          rwa [hik] at this

/-! ## Claim theorems -/

/-- Claim C1.  The claim states that when `SelfETHTransfer` returns an
error, the per-header step logs the failure and continues to the next
header without crashing, with no value derived from the failed
construction's transaction result accessed before the error check.
The code does the opposite: for every construction error and either
submission mode, the step dereferences the nil transaction in the
`log.Info` call before the error check is reached, panicking the
process instead of skipping the block. -/
theorem processHeader_error_crashes (e : BuildError) (usePayload : Bool) :
    processHeader (.error e) usePayload = .crashNilDeref ∧
    processHeader (.error e) usePayload ≠ .skipped := by
  refine ⟨rfl, ?_⟩
  intro h
  simp [processHeader] at h

/-- Claim C2 (counterexample).  The first code variant of
`SelfETHTransfer`, run on a fully-successful chain state with base
fee 100, returns a transaction whose gas tip cap is 0, not
2 × base fee = 200: the claim's tip-cap clause fails for this
variant. -/
theorem selfETHTransferV1_zero_tip_cex :
    selfETHTransferV1 sampleState sampleAcct 1000 1 =
      .ok ({ nonce := 5, value := 1000, gas := 500000, gasFeeCap := 400
             gasTipCap := 0 }, 11) ∧
    2 * sampleHeader.baseFee = 200 ∧ (0 : Int) ≠ 200 := by
  refine ⟨rfl, rfl, by decide⟩

/-- Claim C2 (amended).  When the nonce, header and chain-id reads
succeed and signing succeeds, both code variants of `SelfETHTransfer`
return a transaction whose nonce equals the pending nonce and whose
fee cap is 2 × (2 × base fee) = 4 × base fee; the priority fee cap is
2 × base fee in the second variant but 0 in the first; in both
variants (for a non-negative base fee) fee cap ≥ tip cap ≥ 0. -/
theorem selfETHTransfer_fee_policy (nonce : Nat) (hdr : Header) (cid : Int)
    (addr : Nat) (value : Int) (offset : Nat) (hbf : 0 ≤ hdr.baseFee) :
    ∃ tx1 bn1 tx2 bn2,
      selfETHTransferV1 ⟨some nonce, some hdr, some cid⟩
        ⟨addr, true, true, true⟩ value offset = .ok (tx1, bn1) ∧
      selfETHTransferV2 ⟨some nonce, some hdr, some cid⟩
        ⟨addr, true, true, true⟩ value offset = .ok (tx2, bn2) ∧
      tx1.nonce = nonce ∧ tx2.nonce = nonce ∧
      tx1.gasFeeCap = 4 * hdr.baseFee ∧ tx2.gasFeeCap = 4 * hdr.baseFee ∧
      tx1.gasTipCap = 0 ∧ tx2.gasTipCap = 2 * hdr.baseFee ∧
      tx1.gasTipCap ≤ tx1.gasFeeCap ∧ 0 ≤ tx1.gasTipCap ∧
      tx2.gasTipCap ≤ tx2.gasFeeCap ∧ 0 ≤ tx2.gasTipCap := by
  refine ⟨{ nonce := nonce, value := value, gas := 500000
            gasFeeCap := hdr.baseFee * 2 * 2, gasTipCap := 0 },
    (hdr.number + offset) % 2 ^ 64,
    { nonce := nonce, value := value, gas := 500000
      gasFeeCap := hdr.baseFee * 2 * 2, gasTipCap := hdr.baseFee * 2 },
    (hdr.number + offset) % 2 ^ 64,
    rfl, rfl, rfl, rfl, ?_, ?_, rfl, ?_, ?_, ?_, ?_, ?_⟩ <;>
  dsimp only <;> omega

/-- Claim C2 (amended, witness): the amended statement evaluated at a
concrete successful chain state with base fee 100. -/
theorem selfETHTransfer_fee_policy_witness :
    (0 : Int) ≤ sampleHeader.baseFee ∧
    ∃ tx1 bn1 tx2 bn2,
      selfETHTransferV1 ⟨some 5, some sampleHeader, some 17000⟩
        ⟨0, true, true, true⟩ 1000 1 = .ok (tx1, bn1) ∧
      selfETHTransferV2 ⟨some 5, some sampleHeader, some 17000⟩
        ⟨0, true, true, true⟩ 1000 1 = .ok (tx2, bn2) ∧
      tx1.nonce = 5 ∧ tx2.nonce = 5 ∧
      tx1.gasFeeCap = 4 * sampleHeader.baseFee ∧
      tx2.gasFeeCap = 4 * sampleHeader.baseFee ∧
      tx1.gasTipCap = 0 ∧ tx2.gasTipCap = 2 * sampleHeader.baseFee ∧
      tx1.gasTipCap ≤ tx1.gasFeeCap ∧ 0 ≤ tx1.gasTipCap ∧
      tx2.gasTipCap ≤ tx2.gasFeeCap ∧ 0 ≤ tx2.gasTipCap :=
  ⟨by decide, selfETHTransfer_fee_policy 5 sampleHeader 17000 0 1000 1 (by decide)⟩

/-- Claim C3 (counterexample).  On an oracle for which every blob's
commitment and proof generation fails, `ExecuteBlobTransaction` with
one blob still returns a signed transaction — with the zero-valued
commitment, proof and the corresponding versioned hash in its sidecar
— instead of failing with a commitment error. -/
theorem executeBlob_commitment_failure_cex :
    failingKzgOracle.blobToCommitment (failingKzgOracle.entropy 0) = none ∧
    executeBlobTransaction failingKzgOracle sampleState sampleAcct 1 1 =
      .ok ({ chainID := 17000, nonce := 5, gasTipCap := 0, gasFeeCap := 400
             gas := 500000, blobFeeCap := 1101, blobHashes := [0]
             sidecar := { blobs := [0], commitments := [0], proofs := [0] } },
        11) := by
  exact ⟨rfl, rfl⟩

/-- Claim C3 (amended).  `makeSidecar` discards the error results of
`BlobToCommitment` and `ComputeBlobProof`, so a commitment or proof
failure never aborts `ExecuteBlobTransaction`: whenever the state
reads and the signing calls succeed, the build returns a transaction
regardless of the commitment oracle, and each failing blob
contributes the zero-valued commitment and proof to the sidecar. -/
theorem executeBlob_ignores_commitment_errors (o : ExtOracle) (nonce : Nat)
    (hdr : Header) (cid : Int) (addr : Nat) (numBlobs offset : Nat) :
    ∃ tx bn,
      executeBlobTransaction o ⟨some nonce, some hdr, some cid⟩
        ⟨addr, true, true, true⟩ numBlobs offset = .ok (tx, bn) ∧
      tx.sidecar.commitments =
        (randBlobs o numBlobs).map (fun b => (o.blobToCommitment b).getD 0) ∧
      tx.sidecar.proofs =
        (randBlobs o numBlobs).map (fun b =>
          (o.computeBlobProof b ((o.blobToCommitment b).getD 0)).getD 0) :=
  ⟨_, _, rfl, rfl, rfl⟩

/-- Claim C10.  `AuthenticateAddress` called with the empty
private-key string returns the zero-valued account (nil private key,
nil public key, zero address, nil transactor) and a nil error, for
every behaviour of the cryptographic collaborators: an absent key is
not reported as a failure by this operation. -/
theorem authenticateAddress_empty_key (c : CryptoOracle) :
    authenticateAddress c "" =
      .ok { privateKey := none, publicKey := none, address := 0
            auth := none } := by
  rfl

/-- Claim C4 (counterexample).  `SendBid` called with an empty
transaction-hash list is not rejected: it constructs a request in
which both the transaction-hash list and the raw-transaction list are
empty and sends it to the bidder service, returning success. -/
theorem sendBid_empty_input_cex :
    sendBid (fun _ => some "") emptyStreamClient (.hashes []) "1" 1 0 36000 =
      .ok ({ amount := "1", blockNumber := 1, decayStartTimestamp := 0
             decayEndTimestamp := 36000, txHashes := []
             rawTransactions := [] }, []) := by
  rfl

/-- Claim C4 (amended).  A request constructed by `SendBid` never has
both lists non-empty, and an input of unsupported type is rejected
with an error; a non-empty hash input populates exactly the
transaction-hash list and a non-empty transaction input (whose
marshalling succeeds) populates exactly the raw-transaction list; but
an empty input list is not rejected — it yields a request with both
lists empty which is still sent. -/
theorem sendBid_request_form (marshal : DynamicFeeTx → Option String)
    (client : BidderClient) (amount : String) (bn ds de : Int) :
    (∀ input bid ms,
      sendBid marshal client input amount bn ds de = .ok (bid, ms) →
      bid.txHashes = [] ∨ bid.rawTransactions = []) ∧
    sendBid marshal client .other amount bn ds de =
      .error .unsupportedInput ∧
    (∀ v bid ms, v ≠ [] →
      sendBid marshal client (.hashes v) amount bn ds de = .ok (bid, ms) →
      bid.txHashes = v.map trimHex0x ∧ bid.rawTransactions = []) ∧
    (∀ v bid ms, v ≠ [] →
      sendBid marshal client (.txs v) amount bn ds de = .ok (bid, ms) →
      bid.txHashes = [] ∧ bid.rawTransactions ≠ []) ∧
    (client.send (mkBidRequest [] [] amount bn ds de) = some [] →
      sendBid marshal client (.hashes []) amount bn ds de =
        .ok (mkBidRequest [] [] amount bn ds de, [])) := by
  refine ⟨?_, rfl, ?_, ?_, ?_⟩
  · intro input bid ms h
    have hreq := sendBid_ok_inv _ _ _ _ _ _ _ _ _ h
    rcases sendBidRequest_ok_inv _ _ _ _ _ _ _ hreq with
      ⟨v, _, hbid⟩ | ⟨v, raws, _, _, hbid⟩
    · rw [hbid]; exact mkBidRequest_exclusive _ _ _ _ _ _
    · rw [hbid]; exact mkBidRequest_exclusive _ _ _ _ _ _
  · intro v bid ms hv h
    have hreq := sendBid_ok_inv _ _ _ _ _ _ _ _ _ h
    rcases sendBidRequest_ok_inv _ _ _ _ _ _ _ hreq with
      ⟨w, hw, hbid⟩ | ⟨w, _, hw, _, _⟩
    · injection hw with hw
      subst hw
      have hlen : (v.map trimHex0x).length > 0 := by
        simpa using List.length_pos.mpr hv
      constructor
      · rw [hbid, mkBidRequest_txHashes]
        simp [hlen]
      · rw [hbid, mkBidRequest_rawTransactions]
        simp [hlen]
    · cases hw
  · intro v bid ms hv h
    have hreq := sendBid_ok_inv _ _ _ _ _ _ _ _ _ h
    rcases sendBidRequest_ok_inv _ _ _ _ _ _ _ hreq with
      ⟨w, hw, _⟩ | ⟨w, raws, hw, hm, hbid⟩
    · cases hw
    · injection hw with hw
      subst hw
      have hraws : raws.length > 0 := by
        rw [marshalRawTxs_length marshal v raws hm]
        simpa using List.length_pos.mpr hv
      constructor
      · rw [hbid, mkBidRequest_txHashes]
        simp
      · rw [hbid, mkBidRequest_rawTransactions]
        simp only [List.length_nil, gt_iff_lt, Nat.lt_irrefl, if_false]
        rw [if_pos hraws]
        intro hraws0
        rw [hraws0] at hraws
        simp at hraws
  · intro hclient
    unfold sendBid sendBidRequest
    simp only [List.map_nil]
    rw [hclient]
    rfl

/-- Claim C4 (amended, witness): the amended statement evaluated at a
concrete marshaller and client. -/
theorem sendBid_request_form_witness :
    (∀ input bid ms,
      sendBid (fun _ => some "aa") emptyStreamClient input "1" 1 0 36000 =
        .ok (bid, ms) →
      bid.txHashes = [] ∨ bid.rawTransactions = []) ∧
    sendBid (fun _ => some "aa") emptyStreamClient .other "1" 1 0 36000 =
      .error .unsupportedInput ∧
    (∀ v bid ms, v ≠ [] →
      sendBid (fun _ => some "aa") emptyStreamClient (.hashes v) "1" 1 0
        36000 = .ok (bid, ms) →
      bid.txHashes = v.map trimHex0x ∧ bid.rawTransactions = []) ∧
    (∀ v bid ms, v ≠ [] →
      sendBid (fun _ => some "aa") emptyStreamClient (.txs v) "1" 1 0
        36000 = .ok (bid, ms) →
      bid.txHashes = [] ∧ bid.rawTransactions ≠ []) ∧
    (emptyStreamClient.send (mkBidRequest [] [] "1" 1 0 36000) = some [] →
      sendBid (fun _ => some "aa") emptyStreamClient (.hashes []) "1" 1 0
        36000 = .ok (mkBidRequest [] [] "1" 1 0 36000, [])) :=
  sendBid_request_form (fun _ => some "aa") emptyStreamClient "1" 1 0 36000

theorem sendBid_eval (marshal : DynamicFeeTx → Option String)
    (client : BidderClient) (input : BidInput) (amount : String)
    (bn ds de : Int) (bidRequest : Bid) (events : List (Option BidMsg))
    (hreq : sendBidRequest marshal input amount bn ds de = .ok bidRequest)
    (hsend : client.send bidRequest = some events) :
    sendBid marshal client input amount bn ds de =
      match drainStream events with
      | .error e => .error e
      | .ok responses => .ok (bidRequest, responses) := by
  unfold sendBid
  rw [hreq]
  show (match client.send bidRequest with
    | none => Except.error SendBidError.sendFailed
    | some events =>
      match drainStream events with
      | .error e => .error e
      | .ok responses => .ok (bidRequest, responses)) = _
  rw [hsend]

/-- Claim C5.  `SendBid` drains the response stream to completion
before returning: when every receive before end-of-stream succeeds it
returns successfully having accumulated every acceptance record in
order, and when any mid-stream receive errors it returns an error and
the partial accumulation is discarded rather than returned. -/
theorem sendBid_drains_stream (marshal : DynamicFeeTx → Option String)
    (client : BidderClient) (input : BidInput) (amount : String)
    (bn ds de : Int) (bidRequest : Bid) (events : List (Option BidMsg))
    (hreq : sendBidRequest marshal input amount bn ds de = .ok bidRequest)
    (hsend : client.send bidRequest = some events) :
    ((∀ e ∈ events, e ≠ none) →
      sendBid marshal client input amount bn ds de =
        .ok (bidRequest, events.filterMap id)) ∧
    (none ∈ events →
      sendBid marshal client input amount bn ds de =
        .error .streamRecvFailed) := by
  have heval := sendBid_eval marshal client input amount bn ds de bidRequest
    events hreq hsend
  constructor
  · intro hall
    rw [heval, drainStream_all_some events hall]
  · intro hnone
    rw [heval, drainStream_has_none events hnone]

/-- Claim C5 (witness): the statement evaluated on a concrete
two-record stream and on a concrete stream with a mid-stream error. -/
theorem sendBid_drains_stream_witness :
    ((∀ e ∈ [some 7, some 8], e ≠ (none : Option BidMsg)) →
      sendBid (fun _ => some "aa") sampleClient (.hashes ["0xab"]) "1" 1 0
        36000 =
        .ok (mkBidRequest ["ab"] [] "1" 1 0 36000,
          ([some 7, some 8] : List (Option BidMsg)).filterMap id)) ∧
    ((none : Option BidMsg) ∈ [some 7, some 8] →
      sendBid (fun _ => some "aa") sampleClient (.hashes ["0xab"]) "1" 1 0
        36000 = .error .streamRecvFailed) :=
  sendBid_drains_stream (fun _ => some "aa") sampleClient (.hashes ["0xab"])
    "1" 1 0 36000 (mkBidRequest ["ab"] [] "1" 1 0 36000) [some 7, some 8]
    (by rfl) (by rfl)

/-- Claim C6.  For every blob count `n ≥ 1` (and any commitment
oracle), when the state reads and the signing calls succeed,
`ExecuteBlobTransaction` returns a transaction carrying exactly `n`
blobs, `n` commitments, `n` proofs and `n` versioned blob hashes. -/
theorem executeBlob_counts (o : ExtOracle) (nonce : Nat) (hdr : Header)
    (cid : Int) (addr : Nat) (numBlobs offset : Nat)
    (_hn : 1 ≤ numBlobs) :
    ∃ tx bn,
      executeBlobTransaction o ⟨some nonce, some hdr, some cid⟩
        ⟨addr, true, true, true⟩ numBlobs offset = .ok (tx, bn) ∧
      tx.sidecar.blobs.length = numBlobs ∧
      tx.sidecar.commitments.length = numBlobs ∧
      tx.sidecar.proofs.length = numBlobs ∧
      tx.blobHashes.length = numBlobs := by
  refine ⟨_, _, rfl, ?_, ?_, ?_, ?_⟩ <;>
    simp [makeSidecar, randBlobs, sidecarBlobHashes]

/-- Claim C6 (witness): two blobs on a concrete oracle and state. -/
theorem executeBlob_counts_witness :
    1 ≤ 2 ∧
    ∃ tx bn,
      executeBlobTransaction failingKzgOracle
        ⟨some 5, some sampleHeader, some 17000⟩ ⟨0, true, true, true⟩ 2 1 =
        .ok (tx, bn) ∧
      tx.sidecar.blobs.length = 2 ∧
      tx.sidecar.commitments.length = 2 ∧
      tx.sidecar.proofs.length = 2 ∧
      tx.blobHashes.length = 2 :=
  ⟨by decide,
    executeBlob_counts failingKzgOracle 5 sampleHeader 17000 0 2 1 (by decide)⟩

/-- Claim C7.  When the state reads and the signing calls succeed, the
blob fee cap of the transaction produced by `ExecuteBlobTransaction`
equals `((m + 1) * 110) / 100` for the network-computed minimum `m`,
is strictly greater than `m`, and exceeds it by at least the 10%
replacement bump (`110 * m ≤ 100 * cap`); in particular for
`m = 1000` the cap is at least 1100. -/
theorem executeBlob_blobFeeCap_bump (o : ExtOracle) (nonce : Nat)
    (hdr : Header) (cid : Int) (addr : Nat) (numBlobs offset : Nat) :
    ∃ tx bn,
      executeBlobTransaction o ⟨some nonce, some hdr, some cid⟩
        ⟨addr, true, true, true⟩ numBlobs offset = .ok (tx, bn) ∧
      tx.blobFeeCap =
        blobFeeCapBump (o.calcBlobFee
          (o.calcExcessBlobGas hdr.excessBlobGas hdr.blobGasUsed)) ∧
      o.calcBlobFee (o.calcExcessBlobGas hdr.excessBlobGas hdr.blobGasUsed) <
        tx.blobFeeCap ∧
      110 * o.calcBlobFee
          (o.calcExcessBlobGas hdr.excessBlobGas hdr.blobGasUsed) ≤
        100 * tx.blobFeeCap ∧
      (o.calcBlobFee (o.calcExcessBlobGas hdr.excessBlobGas hdr.blobGasUsed) =
          1000 → 1100 ≤ tx.blobFeeCap) := by
  refine ⟨_, _, rfl, rfl, ?_, ?_, ?_⟩
  · exact (blobFeeCapBump_gt _).1
  · exact (blobFeeCapBump_gt _).2
  · intro hm
    dsimp only
    rw [hm]
    decide

/-- Claim C7 (witness): evaluated on an oracle whose network-computed
minimum blob fee is 1000 — the resulting cap is 1101 ≥ 1100. -/
theorem executeBlob_blobFeeCap_bump_witness :
    ∃ tx bn,
      executeBlobTransaction failingKzgOracle
        ⟨some 5, some sampleHeader, some 17000⟩ ⟨0, true, true, true⟩ 1 1 =
        .ok (tx, bn) ∧
      tx.blobFeeCap =
        blobFeeCapBump (failingKzgOracle.calcBlobFee
          (failingKzgOracle.calcExcessBlobGas sampleHeader.excessBlobGas
            sampleHeader.blobGasUsed)) ∧
      failingKzgOracle.calcBlobFee
          (failingKzgOracle.calcExcessBlobGas sampleHeader.excessBlobGas
            sampleHeader.blobGasUsed) < tx.blobFeeCap ∧
      110 * failingKzgOracle.calcBlobFee
          (failingKzgOracle.calcExcessBlobGas sampleHeader.excessBlobGas
            sampleHeader.blobGasUsed) ≤ 100 * tx.blobFeeCap ∧
      (failingKzgOracle.calcBlobFee
          (failingKzgOracle.calcExcessBlobGas sampleHeader.excessBlobGas
            sampleHeader.blobGasUsed) = 1000 → 1100 ≤ tx.blobFeeCap) :=
  executeBlob_blobFeeCap_bump failingKzgOracle 5 sampleHeader 17000 0 1 1

theorem bidDecayDurationMs_eq : bidDecayDurationMs = 36000 := by decide

/-- Claim C8.  Every bid request submitted by `sendPreconfBid` has
`decayStart` equal to the submission time in milliseconds since epoch
and `decayEnd` exactly 36000 milliseconds (36 seconds) later, so
`decayEnd > decayStart` and the window length is the fixed configured
duration. -/
theorem sendPreconfBid_decay_window (marshal : DynamicFeeTx → Option String)
    (client : BidderClient) (input : PreconfInput)
    (blockNumber nowMs randomWeiAmount : Int) (bid : Bid) (ms : List BidMsg)
    (hres : sendPreconfBid marshal client input blockNumber nowMs
      randomWeiAmount = some (.ok (bid, ms))) :
    bid.decayStartTimestamp = nowMs ∧
    bid.decayEndTimestamp = nowMs + 36000 ∧
    bid.decayEndTimestamp - bid.decayStartTimestamp = 36000 ∧
    bid.decayStartTimestamp < bid.decayEndTimestamp := by
  cases input with
  | hashString s =>
    simp only [sendPreconfBid, Option.some.injEq] at hres
    have hreq := sendBid_ok_inv _ _ _ _ _ _ _ _ _ hres
    rcases sendBidRequest_ok_inv _ _ _ _ _ _ _ hreq with
      ⟨v, _, hbid⟩ | ⟨v, raws, _, _, hbid⟩ <;>
    · rw [hbid, (mkBidRequest_decay _ _ _ _ _ _).1,
        (mkBidRequest_decay _ _ _ _ _ _).2, bidDecayDurationMs_eq]
      omega
  | txObject t =>
    simp only [sendPreconfBid, Option.some.injEq] at hres
    have hreq := sendBid_ok_inv _ _ _ _ _ _ _ _ _ hres
    rcases sendBidRequest_ok_inv _ _ _ _ _ _ _ hreq with
      ⟨v, _, hbid⟩ | ⟨v, raws, _, _, hbid⟩ <;>
    · rw [hbid, (mkBidRequest_decay _ _ _ _ _ _).1,
        (mkBidRequest_decay _ _ _ _ _ _).2, bidDecayDurationMs_eq]
      omega
  | other => simp [sendPreconfBid] at hres

/-- The concrete bid request submitted by `sendPreconfBid` at
submission time 0 for transaction hash "0xab" and amount 5 wei. -/
def sampleDecayBid : Bid :=
  { amount := "5", blockNumber := 2, decayStartTimestamp := 0
    decayEndTimestamp := 36000, txHashes := ["ab"]
    rawTransactions := [] }

/-- Claim C8 (witness): the decay-window statement evaluated on a
concrete hash-input bid submitted at time 0. -/
theorem sendPreconfBid_decay_window_witness :
    sampleDecayBid.decayStartTimestamp = 0 ∧
    sampleDecayBid.decayEndTimestamp = 0 + 36000 ∧
    sampleDecayBid.decayEndTimestamp - sampleDecayBid.decayStartTimestamp =
      36000 ∧
    sampleDecayBid.decayStartTimestamp < sampleDecayBid.decayEndTimestamp :=
  sendPreconfBid_decay_window (fun _ => some "aa") emptyStreamClient
    (.hashString "0xab") 2 0 5 sampleDecayBid [] (by rfl)

/-- Claim C9 (counterexample).  The claim states that `reconnect`
always terminates, performing at most 10 retries and escalating to a
fatal failure once they are exhausted.  But the inner
`connectWSClient` recurses on itself without bound after a failed
dial, so on an endpoint whose dial always fails `reconnectWSClient`
never returns at all: it neither re-establishes the subscription nor
escalates to the fatal failure, for any number of attempts. -/
theorem reconnect_dial_failure_diverges :
    ¬ reconnectTerminates (fun _ => false) (fun _ => true) := by
  rintro ⟨fuel, h⟩
  unfold reconnectWSClient at h
  rw [reconnectLoop_false_dial 10 0 0 fuel (by norm_num)] at h
  simp at h

/-- Claim C9 (amended).  The bounded retry budget of 10 applies to the
subscription step only: when every dial succeeds, `reconnectWSClient`
terminates within its 10 loop iterations — with a live
connection-plus-subscription if some iteration `i < 10` subscribes
successfully, and with the fatal escalation exactly when all 10
subscription attempts fail.  Under a persistently failing dial,
however, the inner `connectWSClient` retries without bound and
`reconnectWSClient` never terminates (previous theorem), so the
claimed fatal escalation after 10 attempts does not cover dial
failures. -/
theorem reconnect_bounded_subscription_retries (subOk : Nat → Bool) :
    (reconnectWSClient (fun _ => true) subOk 1).isSome = true ∧
    (reconnectWSClient (fun _ => true) subOk 1 = some .fatal ↔
      ∀ i, i < 10 → subOk i = false) := by
  obtain ⟨h1, h2⟩ := reconnectLoop_true_dial subOk 10 0 0
  unfold reconnectWSClient
  refine ⟨h1, ?_⟩
  rw [h2]
  constructor
  · intro hall k hk
    simpa using hall k hk
  · intro hall k hk
    simpa using hall k hk

/-- Claim C9 (amended, witness): with every dial succeeding and every
subscription failing, the loop escalates to the fatal outcome. -/
theorem reconnect_bounded_subscription_retries_witness :
    reconnectWSClient (fun _ => true) (fun _ => false) 1 = some .fatal :=
  (reconnect_bounded_subscription_retries (fun _ => false)).2.mpr
    (fun _ _ => rfl)

end PreconfBot
